import Mathlib

/-!
Code_Editor_ server: a verification development of `server.js`.

The file embeds the two request handlers of `src/server.js`:

* `POST /generate-code` (lines 127-151): the post-processing of the generated
  reply, `codeBlockRegex`, `match`, `replace` and `trim` (lines 142-144);
* `POST /compile` (lines 33-124): the whole handler, as a function from the
  outcomes of its file-system and process operations to the list of operations
  it performs, the responses it sends and the files it leaves behind.

JavaScript strings are modelled as `String` / `List Char`.  Every character the
code inspects (the backtick and the white space that `trim` strips) lies in the
basic multilingual plane, so code points and UTF-16 code units agree on them.
-/

namespace CodeEditor

/-! ## Part 1: code extraction of `/generate-code` (server.js 141-146) -/

/-- The backtick, U+0060. -/
def tick : Char := Char.ofNat 96

/-- The three backticks of a fence, the literal part of `codeBlockRegex`. -/
def fence : List Char := [tick, tick, tick]

/-- The fence as a string. -/
def fenceStr : String := String.mk fence

/-- Does the text start with three backticks: the literal of the regex matched at
the current position. -/
def isFenceAt : List Char → Bool
  | a :: b :: c :: _ => a == tick && b == tick && c == tick
  | _ => false

/-- The lazy group of `codeBlockRegex` followed by the closing fence, run on the
text after an opening fence: at each position the engine first tries the closing
fence and only when that fails lets the group take one more character (any
character: the class is `[\w\W]`).  The result is the text the group matched;
`none` when the text runs out before a closing fence is found. -/
def lazyBody : List Char → Option (List Char)
  | [] => none
  | c :: rest => if isFenceAt (c :: rest) then some [] else (lazyBody rest).map (c :: ·)

/-- The regex `codeBlockRegex` tried at the start of the text: the matched text. -/
def matchAt (s : List Char) : Option (List Char) :=
  if isFenceAt s then (lazyBody (s.drop 3)).map (fun body => fence ++ body ++ fence) else none

/-- The value of `codeMatches[0]` (line 143-144): the match at the leftmost position
where the regex matches, `none` when `match` returns `null`. -/
def firstMatch : List Char → Option (List Char)
  | [] => none
  | c :: rest =>
    match matchAt (c :: rest) with
    | some m => some m
    | none => firstMatch rest

/-- The global replace of line 144 (every fence replaced by the empty string),
scanning left to right; the counter is the number of characters of the fence
just found that are still to be skipped. -/
def removeFencesFrom : Nat → List Char → List Char
  | _, [] => []
  | k + 1, _ :: rest => removeFencesFrom k rest
  | 0, c :: rest =>
    if isFenceAt (c :: rest) then removeFencesFrom 2 rest else c :: removeFencesFrom 0 rest

/-- The call `replace(fenceRegex, '')` of line 144. -/
def removeFences (s : List Char) : List Char := removeFencesFrom 0 s

/-- The characters `String.prototype.trim` strips: ECMAScript WhiteSpace
(TAB, VT, FF, SP, NBSP, ZWNBSP and the space separators) and LineTerminator
(LF, CR, LS, PS). -/
def isJsWhitespace (c : Char) : Bool :=
  let n := c.toNat
  n == 9 || n == 10 || n == 11 || n == 12 || n == 13 || n == 32 || n == 160 ||
  n == 5760 || (8192 ≤ n && n ≤ 8202) || n == 8232 || n == 8233 || n == 8239 ||
  n == 8287 || n == 12288 || n == 65279

/-- The method `trim`: leading and trailing white space removed. -/
def trim (s : List Char) : List Char :=
  (s.dropWhile isJsWhitespace).rdropWhile isJsWhitespace

/-- Line 144 on the characters of the reply. -/
def extractChars (s : List Char) : List Char :=
  match firstMatch s with
  | some m => trim (removeFences m)
  | none => trim s

/-- The value of `codeOnly` (line 144) for the reply `generatedCode`. -/
def extractCode (generatedCode : String) : String :=
  String.mk (extractChars generatedCode.data)

/-- The reply contains a closed pair of fences. -/
def HasClosedFence (s : List Char) : Prop :=
  ∃ a b c : List Char, s = a ++ fence ++ b ++ fence ++ c

/-! ## Part 2: the `/compile` handler (server.js 33-124) -/

/-- The body of a `/compile` request (line 34).  An absent `input` or `libraries`
is `none`. -/
structure Request where
  code : String
  language : String
  input : Option String
  libraries : Option (List String)

/-- The outcomes of the operations the handler performs on its environment: one
field per file-system or process call whose result the code inspects. -/
structure World where
  /-- The path `path.join(__dirname, "temp")` (line 37). -/
  tempDir : String
  /-- Result of `fs.existsSync(tempDir)` (line 38). -/
  tempDirExists : Bool
  /-- The message of the error `fs.mkdirSync` throws, `none` when it succeeds (line 40). -/
  mkdirError : Option String
  /-- Whether `fs.accessSync(dir, W_OK)` succeeds (line 24). -/
  writable : Bool
  /-- The paths present in the temp directory when the request arrives. -/
  files : List String
  /-- The first identifier `uuidv4()` returns (line 53). -/
  sourceId : String
  /-- The second identifier `uuidv4()` returns (line 82). -/
  binaryId : String
  /-- Whether `fs.writeFileSync(tempFile, code)` throws (line 54). -/
  writeFails : Bool
  /-- Whether a `writeFileSync` that throws has already created the file (for instance
  an empty file when the disk is full). -/
  writeLeavesFile : Bool
  /-- The message of the error `execSync` throws, `none` when the install succeeds
  (line 67). -/
  installError : Option String
  /-- Whether `exec` calls back with an error: non-zero exit or spawn failure (line 90). -/
  execError : Bool
  /-- Whether the child process never ends, so that `exec` never calls back (line 89
  sets no timeout).  A call back with an error is a call back: the field matters
  only when `execError` is `false`. -/
  childHangs : Bool
  /-- The captured standard output of the child process. -/
  stdout : String
  /-- The captured standard error of the child process. -/
  stderr : String
  /-- What the child process does to the temp directory: the paths present after
  the run, from those present before it. -/
  childFiles : List String → List String
  /-- Whether `fs.unlinkSync` throws on a path that exists. -/
  unlinkFails : String → Bool
  /-- The bytes `fs.readFileSync` reads from a path, `none` when it throws (line 108). -/
  readFile : String → Option (List Nat)

/-- The JSON body and status of a response: `res.status(s).json(body)`; `res.json`
alone has status 200.  The field `plot` is `none` when the body has no such key. -/
structure Response where
  status : Nat
  output : String
  plot : Option String
deriving DecidableEq

/-- The operations of one run of the handler, in the order it performs them. -/
inductive Event where
  | mkdir (dir : String)
  | write (path : String) (data : String)
  | install (command : String)
  | spawn (command : String)
  | stdin (text : String)
  | unlink (path : String)
  | read (path : String)
  | respond (r : Response)
deriving DecidableEq

/-- One run of the handler: what it did, the paths left in the temp directory, and
whether an exception escaped the handler function. -/
structure Run where
  events : List Event
  files : List String
  threw : Bool

/-- The operations `es` followed by the run `r`. -/
def Run.prepend (es : List Event) (r : Run) : Run :=
  { r with events := es ++ r.events }

/-- The responses among a list of operations. -/
def responsesOf (es : List Event) : List Response :=
  es.filterMap fun e => match e with
    | .respond r => some r
    | _ => none

/-- The commands of the child processes spawned by `exec` among a list of operations. -/
def spawnsOf (es : List Event) : List String :=
  es.filterMap fun e => match e with
    | .spawn c => some c
    | _ => none

/-- The install commands run by `execSync` among a list of operations. -/
def installsOf (es : List Event) : List String :=
  es.filterMap fun e => match e with
    | .install c => some c
    | _ => none

/-- The paths written among a list of operations. -/
def writesOf (es : List Event) : List String :=
  es.filterMap fun e => match e with
    | .write p _ => some p
    | _ => none

/-- The responses the handler sent. -/
def Run.responses (r : Run) : List Response := responsesOf r.events

/-- The commands the handler spawned with `exec`. -/
def Run.spawns (r : Run) : List String := spawnsOf r.events

/-- The install commands the handler ran. -/
def Run.installs (r : Run) : List String := installsOf r.events

/-- The paths the handler wrote. -/
def Run.writes (r : Run) : List String := writesOf r.events

/-- The alphabet of base64. -/
def base64Alphabet : List Char :=
  "ABCDEFGHIJKLMNOPQRSTUVWXYZabcdefghijklmnopqrstuvwxyz0123456789+/".data

/-- The base64 digit of a six-bit value. -/
def base64Digit (n : Nat) : Char := base64Alphabet.getD (n % 64) '='

/-- The encoding `readFileSync` applies with `encoding: "base64"` (line 108):
standard base64 with padding; each byte is taken modulo 256. -/
def base64Encode : List Nat → List Char
  | [] => []
  | [a] =>
    let x := a % 256
    [base64Digit (x / 4), base64Digit (x % 4 * 16), '=', '=']
  | [a, b] =>
    let x := a % 256
    let y := b % 256
    [base64Digit (x / 4), base64Digit (x % 4 * 16 + y / 16), base64Digit (y % 16 * 4), '=']
  | a :: b :: c :: rest =>
    let x := a % 256
    let y := b % 256
    let z := c % 256
    base64Digit (x / 4) :: base64Digit (x % 4 * 16 + y / 16) ::
      base64Digit (y % 16 * 4 + z / 64) :: base64Digit z :: base64Encode rest

/-- The call `path.join(dir, name)` for a name that is a single path segment. -/
def pathJoin (dir name : String) : String := dir ++ "/" ++ name

/-- The extension of the source file (line 53). -/
def sourceExtension (language : String) : String :=
  if language = "javascript" then ".js" else if language = "python" then ".py" else ".c"

/-- The path `tempFile` of the per-request source file (line 53). -/
def tempFile (w : World) (req : Request) : String :=
  pathJoin w.tempDir (w.sourceId ++ sourceExtension req.language)

/-- The path `outputBinary` of the compiled executable (line 82). -/
def binaryPath (w : World) : String := pathJoin w.tempDir w.binaryId

/-- The path `plotPath` of the output image (line 105). -/
def plotPath (w : World) : String := pathJoin w.tempDir "plot.png"

/-- The value of `packageInstallCommand` after lines 58-63; `none` is `undefined`. -/
def packageInstallCommand (language : String) (libraries : List String) : Option String :=
  if language = "python" then some ("pip install " ++ " ".intercalate libraries)
  else if language = "javascript" then some ("npm install " ++ " ".intercalate libraries)
  else none

/-- The install command the handler runs for a request, if any (lines 57-65). -/
def installCommand (req : Request) : Option String :=
  match req.libraries with
  | some libraries => if libraries.length > 0 then packageInstallCommand req.language libraries else none
  | none => none

/-- The values of `command` and `outputBinary` after the selection of lines 75-83. -/
structure Toolchain where
  command : String
  outputBinary : Option String
deriving DecidableEq

/-- The selection of lines 75-87 from the language, the path of the source file
and the path allocated for the executable; `none` is the final `else` branch. -/
def selectToolchain (language tempFile outputBinary : String) : Option Toolchain :=
  if language = "javascript" then some ⟨"node " ++ tempFile, none⟩
  else if language = "python" then some ⟨"python " ++ tempFile, none⟩
  else if language = "c" then
    some ⟨"gcc " ++ tempFile ++ " -o " ++ outputBinary ++ " && " ++ outputBinary, some outputBinary⟩
  else none

/-- The call `fs.unlinkSync(path)`: the paths left, or `none` when it throws (the path
does not exist, or the environment refuses). -/
def unlinkSync (w : World) (files : List String) (path : String) : Option (List String) :=
  if files.contains path && !w.unlinkFails path then some (files.filter fun f => f != path)
  else none

/-- The call `fs.writeFileSync(path, data)` when it succeeds: the paths present. -/
def addFile (files : List String) (path : String) : List String :=
  if files.contains path then files else path :: files

/-- The cleanup of lines 96-103: the unlink calls made and the paths left.  An
exception of either call is caught and logged. -/
def cleanup (w : World) (language tempFile : String) (outputBinary : Option String)
    (files : List String) : List Event × List String :=
  match unlinkSync w files tempFile with
  | none => ([.unlink tempFile], files)
  | some files1 =>
    match outputBinary with
    | some bin =>
      if language = "c" ∧ files1.contains bin = true then
        match unlinkSync w files1 bin with
        | none => ([.unlink tempFile, .unlink bin], files1)
        | some files2 => ([.unlink tempFile, .unlink bin], files2)
      else ([.unlink tempFile], files1)
    | none => ([.unlink tempFile], files1)

/-- The plot collection and success response of lines 105-117. -/
def collectPlot (w : World) (files : List String) : Run :=
  if files.contains (plotPath w) then
    match w.readFile (plotPath w) with
    | some bytes =>
      match unlinkSync w files (plotPath w) with
      | some files1 =>
        ⟨[.read (plotPath w), .unlink (plotPath w),
          .respond ⟨200, w.stdout, some (String.mk (base64Encode bytes))⟩], files1, false⟩
      | none =>
        ⟨[.read (plotPath w), .unlink (plotPath w), .respond ⟨200, w.stdout, some ""⟩],
          files, false⟩
    | none => ⟨[.read (plotPath w), .respond ⟨200, w.stdout, some ""⟩], files, false⟩
  else ⟨[.respond ⟨200, w.stdout, none⟩], files, false⟩

/-- The callback of `exec` (lines 89-118), run when the child process has ended. -/
def execCallback (w : World) (req : Request) (outputBinary : Option String)
    (files : List String) : Run :=
  if w.execError then ⟨[.respond ⟨500, w.stderr, none⟩], files, false⟩
  else
    (collectPlot w (cleanup w req.language (tempFile w req) outputBinary files).2).prepend
      (cleanup w req.language (tempFile w req) outputBinary files).1

/-- The write to the standard input of the child (lines 120-123): `input` is written
when it is truthy, that is present and not empty. -/
def stdinEvents (input : Option String) : List Event :=
  match input with
  | some text => if text = "" then [] else [.stdin text]
  | none => []

/-- Does the callback of `exec` run: the child process ends, or fails to start. -/
def callbackRuns (w : World) : Bool := w.execError || !w.childHangs

/-- Lines 75-123: toolchain selection, spawn, input, and the callback, when the
child process ever ends; when it does not, the handler has spawned it, written its
input, and never answers. -/
def runStage (w : World) (req : Request) (files : List String) : Run :=
  match selectToolchain req.language (tempFile w req) (binaryPath w) with
  | none =>
    match unlinkSync w files (tempFile w req) with
    | some files1 =>
      ⟨[.unlink (tempFile w req), .respond ⟨400, "Unsupported language", none⟩], files1, false⟩
    | none => ⟨[.unlink (tempFile w req)], files, true⟩
  | some toolchain =>
    if callbackRuns w then
      (execCallback w req toolchain.outputBinary (w.childFiles files)).prepend
        (.spawn toolchain.command :: stdinEvents req.input)
    else ⟨.spawn toolchain.command :: stdinEvents req.input, w.childFiles files, false⟩

/-- Lines 56-73: the dependency provisioner, then the rest of the handler. -/
def installStage (w : World) (req : Request) (files : List String) : Run :=
  match installCommand req with
  | some command =>
    match w.installError with
    | some message =>
      ⟨[.install command, .respond ⟨500, "Error installing packages: " ++ message, none⟩],
        files, false⟩
    | none => (runStage w req files).prepend [.install command]
  | none => runStage w req files

/-- Lines 52-54: the source file is written; an exception of `writeFileSync` is not
caught and leaves the handler, and the file may by then exist. -/
def writeStage (w : World) (req : Request) : Run :=
  if w.writeFails then
    ⟨[.write (tempFile w req) req.code],
      if w.writeLeavesFile then addFile w.files (tempFile w req) else w.files, true⟩
  else
    (installStage w req (addFile w.files (tempFile w req))).prepend
      [.write (tempFile w req) req.code]

/-- Lines 47-50: the permission check, then the rest of the handler. -/
def permissionStage (w : World) (req : Request) : Run :=
  if w.writable then writeStage w req
  else ⟨[.respond ⟨500, "No write permission for temp directory", none⟩], w.files, false⟩

/-- The handler of `POST /compile` (lines 33-124). -/
def compileHandler (w : World) (req : Request) : Run :=
  if w.tempDirExists then permissionStage w req
  else
    match w.mkdirError with
    | some message =>
      ⟨[.mkdir w.tempDir, .respond ⟨500, "Error creating temp directory: " ++ message, none⟩],
        w.files, false⟩
    | none => (permissionStage w req).prepend [.mkdir w.tempDir]

/-- The language is one of the three the handler supports. -/
def supported (language : String) : Bool :=
  language == "javascript" || language == "python" || language == "c"

/-- The temp directory exists or can be created, and is writable: the handler gets
as far as writing the source file. -/
def workspaceReady (w : World) : Bool :=
  (w.tempDirExists || w.mkdirError.isNone) && w.writable

/-- The `mkdir` operation the handler starts with when the temp directory is absent. -/
def mkdirEvents (w : World) : List Event :=
  if w.tempDirExists then [] else [.mkdir w.tempDir]

/-! ### One response or an escaped exception -/

/-- A run is settled when it sent at most one response, and none when an exception
escaped the handler. -/
def Settled (r : Run) : Prop :=
  (r.threw = false ∧ ∃ x, r.responses = [x]) ∨ r.responses = []

/-- The and-list of the shell that `exec` hands the command to (`sh -c "a && b"`):
the steps are run from left to right and the list stops at the first step whose
exit status is not zero.  The result is the steps that were run and the exit
status of the list. -/
def shellAndList (exit : String → Nat) : List String → List String × Nat
  | [] => ([], 0)
  | step :: rest =>
    if exit step = 0 then (step :: (shellAndList exit rest).1, (shellAndList exit rest).2)
    else ([step], exit step)

/-- The two steps of the command selected for "c": compile, then run the executable. -/
def cSteps (tempFile outputBinary : String) : List String :=
  ["gcc " ++ tempFile ++ " -o " ++ outputBinary, outputBinary]

/-! ### Concrete requests and worlds, used to evaluate the handler -/

/-- A world in which every operation succeeds, the temp directory is empty and the
child process touches no file. -/
def calmWorld : World where
  tempDir := "/srv/temp"
  tempDirExists := true
  mkdirError := none
  writable := true
  files := []
  sourceId := "7f1c"
  binaryId := "a2b9"
  writeFails := false
  writeLeavesFile := false
  installError := none
  execError := false
  childHangs := false
  stdout := "42\n"
  stderr := ""
  childFiles := fun files => files
  unlinkFails := fun _ => false
  readFile := fun _ => none

/-- A Python request with two libraries and some input. -/
def pythonRequest : Request where
  code := "import sys; sys.exit(int(input()))"
  language := "python"
  input := some "1\n"
  libraries := some ["numpy", "matplotlib"]

/-- A C request without libraries or input. -/
def cRequest : Request where
  code := "int main(void) \x7b return 3; \x7d"
  language := "c"
  input := none
  libraries := none

/-- A request in a language the handler does not support. -/
def rubyRequest : Request where
  code := "puts 1"
  language := "ruby"
  input := none
  libraries := some ["rails"]

/-- The child process exits with a non-zero status. -/
def failingRunWorld : World :=
  { calmWorld with execError := true, stdout := "half", stderr := "Traceback: exit 1" }

/-- The C program compiles (the executable is created) and then exits non-zero. -/
def failingBinaryWorld : World :=
  { calmWorld with
    execError := true, stderr := "", childFiles := fun files => "/srv/temp/a2b9" :: files }

/-- The install command fails. -/
def failingInstallWorld : World :=
  { calmWorld with installError := some "Command failed: pip install numpy matplotlib" }

/-- Writing the source file throws (for instance, the disk is full). -/
def failingWriteWorld : World :=
  { calmWorld with writeFails := true }

/-- The temp directory exists and is not writable. -/
def readOnlyWorld : World :=
  { calmWorld with writable := false }

/-- Another request in a language the handler does not support. -/
def goRequest : Request where
  code := "package main"
  language := "go"
  input := none
  libraries := none

/-- Unlinking any file throws. -/
def failingUnlinkWorld : World :=
  { calmWorld with unlinkFails := fun _ => true }

/-- The child process writes the output image and the image can be read. -/
def plotWorld : World :=
  { calmWorld with
    childFiles := fun files => "/srv/temp/plot.png" :: files,
    readFile := fun _ => some [137, 80, 78, 71] }

/-- The child process writes the output image, the image can be read, and unlinking
the image throws. -/
def stuckPlotWorld : World :=
  { calmWorld with
    childFiles := fun files => "/srv/temp/plot.png" :: files,
    readFile := fun _ => some [137, 80, 78, 71],
    unlinkFails := fun path => path == "/srv/temp/plot.png" }

/-! ## Theorems: code extraction -/

theorem isFenceAt_iff (s : List Char) : isFenceAt s = true ↔ ∃ r, s = fence ++ r := by
  match s with
  | [] => simp [isFenceAt, fence]
  | [a] => simp [isFenceAt, fence]
  | [a, b] => simp [isFenceAt, fence]
  | a :: b :: c :: r =>
    simp only [isFenceAt, fence, Bool.and_eq_true, beq_iff_eq, List.cons_append, List.nil_append,
      List.cons.injEq]
    constructor
    · rintro ⟨⟨h1, h2⟩, h3⟩
      exact ⟨r, h1, h2, h3, rfl⟩
    · rintro ⟨r', h1, h2, h3, -⟩
      exact ⟨⟨h1, h2⟩, h3⟩

theorem isFenceAt_fence_append (r : List Char) : isFenceAt (fence ++ r) = true :=
  (isFenceAt_iff _).2 ⟨r, rfl⟩

theorem isFenceAt_append_of (s r : List Char) (h : isFenceAt s = true) :
    isFenceAt (s ++ r) = true := by
  obtain ⟨t, rfl⟩ := (isFenceAt_iff s).1 h
  rw [List.append_assoc]
  exact isFenceAt_fence_append _

theorem isFenceAt_cons_ne (c : Char) (r : List Char) (h : c ≠ tick) :
    isFenceAt (c :: r) = false := by
  cases hf : isFenceAt (c :: r) with
  | false => rfl
  | true =>
    obtain ⟨t, ht⟩ := (isFenceAt_iff _).1 hf
    simp [fence] at ht
    exact absurd ht.1 h

theorem lazyBody_of_no_tick (body post : List Char) (h : tick ∉ body) :
    lazyBody (body ++ fence ++ post) = some body := by
  induction body with
  | nil =>
    show lazyBody (tick :: ([tick, tick] ++ post)) = some []
    simp [lazyBody, isFenceAt]
  | cons c b ih =>
    have hc : c ≠ tick := fun e => h (by simp [e])
    have hb : tick ∉ b := fun e => h (by simp [e])
    show lazyBody (c :: (b ++ fence ++ post)) = some (c :: b)
    simp only [lazyBody, isFenceAt_cons_ne _ _ hc, ih hb]
    simp

theorem drop_three_fence_append (r : List Char) : (fence ++ r).drop 3 = r := rfl

theorem matchAt_fence_append (r : List Char) :
    matchAt (fence ++ r) = (lazyBody r).map (fun body => fence ++ body ++ fence) := by
  simp only [matchAt, isFenceAt_fence_append, drop_three_fence_append, if_true]

theorem matchAt_cons_ne (c : Char) (r : List Char) (h : c ≠ tick) : matchAt (c :: r) = none := by
  simp [matchAt, isFenceAt_cons_ne _ _ h]

theorem firstMatch_skip (pre t : List Char) (h : tick ∉ pre) :
    firstMatch (pre ++ t) = firstMatch t := by
  induction pre with
  | nil => rfl
  | cons c p ih =>
    have hc : c ≠ tick := fun e => h (by simp [e])
    have hp : tick ∉ p := fun e => h (by simp [e])
    simp only [List.cons_append, firstMatch, matchAt_cons_ne _ _ hc]
    exact ih hp

theorem firstMatch_of_matchAt (t m : List Char) (h : matchAt t = some m) :
    firstMatch t = some m := by
  cases t with
  | nil => simp [matchAt, isFenceAt] at h
  | cons c r => simp [firstMatch, h]

/-- What a successful run of the lazy group says about the text. -/
theorem lazyBody_spec (s b : List Char) (h : lazyBody s = some b) :
    (∃ rest, s = b ++ fence ++ rest) ∧ removeFencesFrom 0 (b ++ fence) = b ∧ ¬ fence <:+: b := by
  induction s generalizing b with
  | nil => simp [lazyBody] at h
  | cons c r ih =>
    simp only [lazyBody] at h
    by_cases hf : isFenceAt (c :: r) = true
    · simp only [hf, if_true, Option.some.injEq] at h
      subst h
      obtain ⟨t, ht⟩ := (isFenceAt_iff _).1 hf
      refine ⟨⟨t, by simpa using ht⟩, ?_, ?_⟩
      · simp [removeFencesFrom, fence, isFenceAt]
      · rintro ⟨x, y, hxy⟩
        simp [fence] at hxy
    · simp only [hf, Bool.false_eq_true, if_false, Option.map_eq_some'] at h
      obtain ⟨b', hb', rfl⟩ := h
      obtain ⟨⟨rest, hrest⟩, hrem, hno⟩ := ih b' hb'
      have hf' : isFenceAt (c :: (b' ++ fence)) = false := by
        cases hq : isFenceAt (c :: (b' ++ fence)) with
        | false => rfl
        | true =>
          exfalso; apply hf
          have := isFenceAt_append_of _ rest hq
          simpa [hrest] using this
      refine ⟨⟨rest, by simp [hrest]⟩, ?_, ?_⟩
      · show removeFencesFrom 0 (c :: (b' ++ fence)) = c :: b'
        simp only [removeFencesFrom, hf', Bool.false_eq_true, if_false, hrem]
      · rintro ⟨x, y, hxy⟩
        cases x with
        | nil =>
          apply hf
          have hq : isFenceAt (c :: b') = true := (isFenceAt_iff _).2 ⟨y, by simpa using hxy.symm⟩
          have := isFenceAt_append_of _ (fence ++ rest) hq
          simpa [hrest] using this
        | cons x0 x' =>
          simp only [List.cons_append, List.cons.injEq] at hxy
          exact hno ⟨x', y, hxy.2⟩

theorem removeFences_match (b : List Char) (h : removeFencesFrom 0 (b ++ fence) = b) :
    removeFences (fence ++ b ++ fence) = b := by
  show removeFencesFrom 0 (tick :: tick :: tick :: b ++ fence) = b
  simp only [removeFencesFrom, List.cons_append]
  have : isFenceAt (tick :: tick :: tick :: (b ++ fence)) = true := isFenceAt_fence_append _
  simp [this, removeFencesFrom, h]

/-- What a match of the regex says about the text. -/
theorem firstMatch_spec (s m : List Char) (h : firstMatch s = some m) :
    ∃ a b c, s = a ++ fence ++ b ++ fence ++ c ∧ m = fence ++ b ++ fence ∧
      removeFences m = b ∧ ¬ fence <:+: b := by
  induction s with
  | nil => simp [firstMatch] at h
  | cons x r ih =>
    simp only [firstMatch] at h
    cases hm : matchAt (x :: r) with
    | some m' =>
      simp only [hm, Option.some.injEq] at h
      subst h
      unfold matchAt at hm
      by_cases hf : isFenceAt (x :: r) = true
      · simp only [hf, if_true, Option.map_eq_some'] at hm
        obtain ⟨b, hb, rfl⟩ := hm
        obtain ⟨t, ht⟩ := (isFenceAt_iff _).1 hf
        rw [ht, drop_three_fence_append] at hb
        obtain ⟨⟨rest, hrest⟩, hrem, hno⟩ := lazyBody_spec _ _ hb
        refine ⟨[], b, rest, ?_, rfl, removeFences_match b hrem, hno⟩
        rw [ht, hrest]; simp
      · simp [hf] at hm
    | none =>
      simp only [hm] at h
      obtain ⟨a, b, c, hs, hm', hr, hno⟩ := ih h
      exact ⟨x :: a, b, c, by simp [hs], hm', hr, hno⟩

theorem lazyBody_isSome (b c : List Char) : (lazyBody (b ++ fence ++ c)).isSome = true := by
  induction b with
  | nil =>
    show (lazyBody (tick :: ([tick, tick] ++ c))).isSome = true
    simp [lazyBody, isFenceAt]
  | cons x b ih =>
    simp only [List.cons_append, lazyBody]
    split
    · rfl
    · simp only [List.cons_append] at ih
      simpa using ih

theorem firstMatch_isSome_of_matchAt (a t : List Char) (h : (matchAt t).isSome = true) :
    (firstMatch (a ++ t)).isSome = true := by
  induction a with
  | nil =>
    obtain ⟨m, hm⟩ := Option.isSome_iff_exists.1 h
    simp [firstMatch_of_matchAt t m hm]
  | cons x a ih =>
    simp only [List.cons_append, firstMatch]
    split
    · rfl
    · exact ih

theorem firstMatch_isSome (s : List Char) (h : HasClosedFence s) :
    (firstMatch s).isSome = true := by
  obtain ⟨a, b, c, rfl⟩ := h
  have : a ++ fence ++ b ++ fence ++ c = a ++ (fence ++ (b ++ fence ++ c)) := by simp
  rw [this]
  apply firstMatch_isSome_of_matchAt
  rw [matchAt_fence_append]
  simpa using lazyBody_isSome b c

theorem firstMatch_eq_none_iff (s : List Char) : firstMatch s = none ↔ ¬ HasClosedFence s := by
  constructor
  · intro h hc
    have := firstMatch_isSome s hc
    simp [h] at this
  · intro h
    cases hm : firstMatch s with
    | none => rfl
    | some m =>
      obtain ⟨a, b, c, hs, -⟩ := firstMatch_spec s m hm
      exact absurd ⟨a, b, c, hs⟩ h

theorem trim_sub (s : List Char) : trim s <:+: s :=
  ( List.rdropWhile_prefix isJsWhitespace _).isInfix.trans
    (List.dropWhile_suffix isJsWhitespace).isInfix

theorem trim_head (s : List Char) (c : Char) (h : (trim s).head? = some c) :
    isJsWhitespace c = false := by
  obtain ⟨r, hr⟩ := List.rdropWhile_prefix isJsWhitespace (s.dropWhile isJsWhitespace)
  have hd := List.head?_dropWhile_not isJsWhitespace s
  cases ht : trim s with
  | nil => simp [ht] at h
  | cons x t =>
    rw [ht] at h
    simp only [List.head?_cons, Option.some.injEq] at h
    subst h
    have ht' : (s.dropWhile isJsWhitespace).rdropWhile isJsWhitespace = x :: t := ht
    rw [ht'] at hr
    rw [← hr] at hd
    simpa using hd

theorem trim_getLast (s : List Char) (c : Char) (h : (trim s).getLast? = some c) :
    isJsWhitespace c = false := by
  have hne : (s.dropWhile isJsWhitespace).rdropWhile isJsWhitespace ≠ [] := by
    intro e
    have : trim s = [] := e
    simp [this] at h
  have hl := List.rdropWhile_last_not isJsWhitespace (s.dropWhile isJsWhitespace) hne
  have h' : ((s.dropWhile isJsWhitespace).rdropWhile isJsWhitespace).getLast? = some c := h
  rw [List.getLast?_eq_getLast _ hne] at h'
  simp only [Option.some.injEq] at h'
  rw [h'] at hl
  simpa using hl

theorem trim_idempotent (s : List Char) : trim (trim s) = trim s := by
  have hd : (trim s).dropWhile isJsWhitespace = trim s := by
    cases ht : trim s with
    | nil => rfl
    | cons x t =>
      have hx := trim_head s x (by simp [ht])
      simp [List.dropWhile_cons, hx]
  show ((trim s).dropWhile isJsWhitespace).rdropWhile isJsWhitespace = trim s
  rw [hd]
  exact List.rdropWhile_idempotent isJsWhitespace _

theorem no_fence_of_sub (s t : List Char) (hst : s <:+: t) (h : ¬ fence <:+: t) :
    ¬ fence <:+: s :=
  fun hs => h (hs.trans hst)

theorem firstMatch_none_of_no_fence (s : List Char) (h : ¬ fence <:+: s) :
    firstMatch s = none := by
  rw [firstMatch_eq_none_iff]
  rintro ⟨a, b, c, rfl⟩
  exact h ⟨a, b ++ fence ++ c, by simp⟩

theorem hasClosedFence_mono (s t : List Char) (hst : s <:+: t) (h : HasClosedFence s) :
    HasClosedFence t := by
  obtain ⟨x, y, rfl⟩ := hst
  obtain ⟨a, b, c, rfl⟩ := h
  exact ⟨x ++ a, b, c ++ y, by simp⟩

theorem extractChars_of_block (pre body post : List Char) (hpre : tick ∉ pre)
    (hbody : tick ∉ body) :
    extractChars (pre ++ fence ++ body ++ fence ++ post) = trim body := by
  have hs : pre ++ fence ++ body ++ fence ++ post = pre ++ (fence ++ (body ++ fence ++ post)) := by
    simp
  have hm : firstMatch (pre ++ fence ++ body ++ fence ++ post) = some (fence ++ body ++ fence) := by
    rw [hs, firstMatch_skip _ _ hpre]
    apply firstMatch_of_matchAt
    rw [matchAt_fence_append, lazyBody_of_no_tick body post hbody]
    rfl
  have hb := lazyBody_spec _ _ (lazyBody_of_no_tick body post hbody)
  simp only [extractChars, hm, removeFences_match body hb.2.1]

theorem extractChars_of_no_block (s : List Char) (h : ¬ HasClosedFence s) :
    extractChars s = trim s := by
  simp only [extractChars, (firstMatch_eq_none_iff s).2 h]

theorem extractChars_of_closed (s : List Char) (h : HasClosedFence s) :
    ¬ fence <:+: extractChars s ∧ trim (extractChars s) = extractChars s := by
  obtain ⟨m, hm⟩ := Option.isSome_iff_exists.1 (firstMatch_isSome s h)
  obtain ⟨a, b, c, -, -, hr, hno⟩ := firstMatch_spec s m hm
  simp only [extractChars, hm, hr]
  exact ⟨no_fence_of_sub _ _ (trim_sub b) hno, trim_idempotent b⟩

theorem extractChars_idempotent (s : List Char) :
    extractChars (extractChars s) = extractChars s := by
  cases hm : firstMatch s with
  | some m =>
    obtain ⟨a, b, c, -, -, hr, hno⟩ := firstMatch_spec s m hm
    have he : extractChars s = trim b := by simp only [extractChars, hm, hr]
    rw [he]
    have hn : firstMatch (trim b) = none :=
      firstMatch_none_of_no_fence _ (no_fence_of_sub _ _ (trim_sub b) hno)
    simp only [extractChars, hn, trim_idempotent]
  | none =>
    have he : extractChars s = trim s := by simp only [extractChars, hm]
    rw [he]
    have hn : firstMatch (trim s) = none := by
      rw [firstMatch_eq_none_iff]
      intro hc
      exact (firstMatch_eq_none_iff s).1 hm (hasClosedFence_mono _ _ (trim_sub s) hc)
    simp only [extractChars, hn, trim_idempotent]

/-- C5: the code extraction returns the content of the first fenced block, or the
trimmed reply when there is none.  For a reply `pre ++ fence ++ body ++ fence ++ post`
in which neither `pre` nor `body` contains a backtick, `extractCode` is `body` with
leading and trailing white space removed, whatever `post` is; for a reply with no
closed pair of fences, it is the reply with leading and trailing white space removed. -/
theorem extractCode_first_block_or_trimmed :
    (∀ pre body post : String, tick ∉ pre.data → tick ∉ body.data →
      extractCode (pre ++ fenceStr ++ body ++ fenceStr ++ post) = String.mk (trim body.data)) ∧
    (∀ reply : String, ¬ HasClosedFence reply.data →
      extractCode reply = String.mk (trim reply.data)) := by
  refine ⟨fun pre body post hpre hbody => ?_, fun reply h => ?_⟩
  · have e : (pre ++ fenceStr ++ body ++ fenceStr ++ post).data =
        pre.data ++ fence ++ body.data ++ fence ++ post.data := by
      simp [fenceStr]
    simp only [extractCode, e, extractChars_of_block pre.data body.data post.data hpre hbody]
  · simp only [extractCode, extractChars_of_no_block _ h]

/-- C5 at a reply with two fenced blocks (the first one is returned, trimmed) and at a
reply with an opening fence only (the whole reply is returned, trimmed). -/
theorem extractCode_first_block_or_trimmed_witness :
    (tick ∉ "Here:\n".data ∧ tick ∉ "js\nlet x = 1; \n".data ∧
      extractCode ("Here:\n" ++ fenceStr ++ "js\nlet x = 1; \n" ++ fenceStr ++
        (" and " ++ fenceStr ++ "py" ++ fenceStr)) = "js\nlet x = 1;") ∧
    (¬ HasClosedFence (" x " ++ fenceStr ++ "y\n").data ∧
      extractCode (" x " ++ fenceStr ++ "y\n") = "x " ++ fenceStr ++ "y") :=
  ⟨⟨by decide, by decide,
      (extractCode_first_block_or_trimmed.1 "Here:\n" "js\nlet x = 1; \n"
        (" and " ++ fenceStr ++ "py" ++ fenceStr) (by decide) (by decide)).trans (by decide)⟩,
    (firstMatch_eq_none_iff _).1 (by decide),
    (extractCode_first_block_or_trimmed.2 (" x " ++ fenceStr ++ "y\n")
      ((firstMatch_eq_none_iff _).1 (by decide))).trans (by decide)⟩

/-- C10: the code extraction is idempotent, and when the reply contains a closed
fenced block the extracted code contains no fence and has no leading or trailing
white space (trimming it changes nothing; its first and last characters, if any,
are not white space). -/
theorem extractCode_idempotent (reply : String) :
    extractCode (extractCode reply) = extractCode reply ∧
    (HasClosedFence reply.data →
      ¬ fence <:+: (extractCode reply).data ∧
      trim (extractCode reply).data = (extractCode reply).data ∧
      (∀ c, (extractCode reply).data.head? = some c → isJsWhitespace c = false) ∧
      (∀ c, (extractCode reply).data.getLast? = some c → isJsWhitespace c = false)) := by
  refine ⟨?_, fun h => ?_⟩
  · simp only [extractCode, extractChars_idempotent]
  · obtain ⟨h1, h2⟩ := extractChars_of_closed _ h
    refine ⟨h1, h2, fun c hc => ?_, fun c hc => ?_⟩
    · have : (trim (extractChars reply.data)).head? = some c := by rw [h2]; exact hc
      exact trim_head _ c this
    · have : (trim (extractChars reply.data)).getLast? = some c := by rw [h2]; exact hc
      exact trim_getLast _ c this

/-- C10 at a reply whose first block has a quadruple opening fence. -/
theorem extractCode_idempotent_witness :
    HasClosedFence ("a" ++ fenceStr ++ "` x\n" ++ fenceStr ++ "b").data ∧
    extractCode ("a" ++ fenceStr ++ "` x\n" ++ fenceStr ++ "b") = "` x" ∧
    extractCode (extractCode ("a" ++ fenceStr ++ "` x\n" ++ fenceStr ++ "b")) =
      extractCode ("a" ++ fenceStr ++ "` x\n" ++ fenceStr ++ "b") ∧
    ¬ fence <:+: (extractCode ("a" ++ fenceStr ++ "` x\n" ++ fenceStr ++ "b")).data :=
  have hc : HasClosedFence ("a" ++ fenceStr ++ "` x\n" ++ fenceStr ++ "b").data :=
    ⟨"a".data, "` x\n".data, "b".data, by decide⟩
  ⟨hc, by decide, (extractCode_idempotent _).1, ((extractCode_idempotent _).2 hc).1⟩

/-! ## Theorems: the `/compile` handler -/

/-! ### Observations of a list of operations -/

theorem responsesOf_append (a b : List Event) :
    responsesOf (a ++ b) = responsesOf a ++ responsesOf b := by
  simp [responsesOf, List.filterMap_append]

theorem spawnsOf_append (a b : List Event) : spawnsOf (a ++ b) = spawnsOf a ++ spawnsOf b := by
  simp [spawnsOf, List.filterMap_append]

theorem installsOf_append (a b : List Event) :
    installsOf (a ++ b) = installsOf a ++ installsOf b := by
  simp [installsOf, List.filterMap_append]

theorem responses_prepend (es : List Event) (r : Run) :
    (r.prepend es).responses = responsesOf es ++ r.responses := by
  simp [Run.responses, Run.prepend, responsesOf_append]

theorem spawns_prepend (es : List Event) (r : Run) :
    (r.prepend es).spawns = spawnsOf es ++ r.spawns := by
  simp [Run.spawns, Run.prepend, spawnsOf_append]

theorem installs_prepend (es : List Event) (r : Run) :
    (r.prepend es).installs = installsOf es ++ r.installs := by
  simp [Run.installs, Run.prepend, installsOf_append]

theorem files_prepend (es : List Event) (r : Run) : (r.prepend es).files = r.files := rfl

theorem threw_prepend (es : List Event) (r : Run) : (r.prepend es).threw = r.threw := rfl

theorem stdinEvents_obs (input : Option String) :
    responsesOf (stdinEvents input) = [] ∧ spawnsOf (stdinEvents input) = [] ∧
      installsOf (stdinEvents input) = [] := by
  unfold stdinEvents
  split
  · split <;> simp [responsesOf, spawnsOf, installsOf]
  · simp [responsesOf, spawnsOf, installsOf]

theorem cleanup_obs (w : World) (language tf : String) (ob : Option String) (files : List String) :
    responsesOf (cleanup w language tf ob files).1 = [] ∧
    spawnsOf (cleanup w language tf ob files).1 = [] ∧
    installsOf (cleanup w language tf ob files).1 = [] := by
  unfold cleanup
  split
  · simp [responsesOf, spawnsOf, installsOf]
  · split
    · split
      · split <;> simp [responsesOf, spawnsOf, installsOf]
      · simp [responsesOf, spawnsOf, installsOf]
    · simp [responsesOf, spawnsOf, installsOf]

/-! ### The stages, from the last to the first -/

theorem collectPlot_obs (w : World) (files : List String) :
    (collectPlot w files).spawns = [] ∧ (collectPlot w files).installs = [] ∧
    (collectPlot w files).threw = false ∧
    ∃ p, (collectPlot w files).responses = [⟨200, w.stdout, p⟩] := by
  unfold collectPlot
  split
  · split
    · split <;> simp [Run.spawns, Run.installs, Run.responses, responsesOf, spawnsOf, installsOf]
    · simp [Run.spawns, Run.installs, Run.responses, responsesOf, spawnsOf, installsOf]
  · simp [Run.spawns, Run.installs, Run.responses, responsesOf, spawnsOf, installsOf]

theorem execCallback_obs (w : World) (req : Request) (ob : Option String) (files : List String) :
    (execCallback w req ob files).spawns = [] ∧ (execCallback w req ob files).installs = [] ∧
    (execCallback w req ob files).threw = false ∧
    ∃ r, (execCallback w req ob files).responses = [r] := by
  unfold execCallback
  split
  · simp [Run.spawns, Run.installs, Run.responses, responsesOf, spawnsOf, installsOf]
  · obtain ⟨h1, h2, h3, p, h4⟩ := collectPlot_obs w
      (cleanup w req.language (tempFile w req) ob files).2
    obtain ⟨c1, c2, c3⟩ := cleanup_obs w req.language (tempFile w req) ob files
    simp [spawns_prepend, installs_prepend, responses_prepend, threw_prepend, h1, h2, h3, h4,
      c1, c2, c3]

theorem execCallback_error (w : World) (req : Request) (ob : Option String) (files : List String)
    (he : w.execError = true) :
    execCallback w req ob files = ⟨[.respond ⟨500, w.stderr, none⟩], files, false⟩ := by
  simp [execCallback, he]

/-- The run stage either spawns exactly the selected command, or spawns nothing. -/
theorem runStage_spawns (w : World) (req : Request) (files : List String) :
    (runStage w req files).spawns =
      ((selectToolchain req.language (tempFile w req) (binaryPath w)).map
        Toolchain.command).toList := by
  unfold runStage
  split
  · rename_i h
    split <;> simp [Run.spawns, spawnsOf, h]
  · rename_i tc h
    obtain ⟨h1, -⟩ := execCallback_obs w req tc.outputBinary (w.childFiles files)
    have hc : spawnsOf (.spawn tc.command :: stdinEvents req.input) =
        tc.command :: spawnsOf (stdinEvents req.input) := rfl
    split
    · rw [spawns_prepend, hc, (stdinEvents_obs req.input).2.1, h1, h]
      rfl
    · show spawnsOf (.spawn tc.command :: stdinEvents req.input) = _
      rw [hc, (stdinEvents_obs req.input).2.1, h]
      rfl

theorem runStage_installs (w : World) (req : Request) (files : List String) :
    (runStage w req files).installs = [] := by
  unfold runStage
  split
  · split <;> simp [Run.installs, installsOf]
  · rename_i tc h
    obtain ⟨-, h2, -⟩ := execCallback_obs w req tc.outputBinary (w.childFiles files)
    have hc : installsOf (.spawn tc.command :: stdinEvents req.input) =
        installsOf (stdinEvents req.input) := rfl
    split
    · rw [installs_prepend, hc, (stdinEvents_obs req.input).2.2, h2]
      rfl
    · show installsOf (.spawn tc.command :: stdinEvents req.input) = _
      rw [hc, (stdinEvents_obs req.input).2.2]

theorem callbackRuns_of_error (w : World) (he : w.execError = true) : callbackRuns w = true := by
  simp [callbackRuns, he]

theorem callbackRuns_of_ends (w : World) (hh : w.childHangs = false) :
    callbackRuns w = true := by
  simp [callbackRuns, hh]

theorem runStage_of_toolchain (w : World) (req : Request) (files : List String) (tc : Toolchain)
    (h : selectToolchain req.language (tempFile w req) (binaryPath w) = some tc)
    (hc : callbackRuns w = true) :
    runStage w req files =
      (execCallback w req tc.outputBinary (w.childFiles files)).prepend
        (.spawn tc.command :: stdinEvents req.input) := by
  simp [runStage, h, hc]

/-- A child process that never ends: it was spawned and given its input, and the
handler does nothing more. -/
theorem runStage_of_hang (w : World) (req : Request) (files : List String) (tc : Toolchain)
    (h : selectToolchain req.language (tempFile w req) (binaryPath w) = some tc)
    (hc : callbackRuns w = false) :
    runStage w req files =
      ⟨.spawn tc.command :: stdinEvents req.input, w.childFiles files, false⟩ := by
  simp [runStage, h, hc]

theorem runStage_responses_of_toolchain (w : World) (req : Request) (files : List String)
    (tc : Toolchain)
    (h : selectToolchain req.language (tempFile w req) (binaryPath w) = some tc)
    (hr : callbackRuns w = true) :
    (runStage w req files).responses =
      (execCallback w req tc.outputBinary (w.childFiles files)).responses := by
  have hc : responsesOf (.spawn tc.command :: stdinEvents req.input) =
      responsesOf (stdinEvents req.input) := rfl
  rw [runStage_of_toolchain w req files tc h hr, responses_prepend, hc,
    (stdinEvents_obs req.input).1]
  rfl

theorem installStage_installs (w : World) (req : Request) (files : List String) :
    (installStage w req files).installs = (installCommand req).toList := by
  unfold installStage
  split
  · rename_i cmd h
    split
    · simp [Run.installs, installsOf, h]
    · rw [installs_prepend, runStage_installs, h]
      rfl
  · rename_i h
    rw [runStage_installs, h]
    rfl

theorem installStage_of_failure (w : World) (req : Request) (files : List String)
    (cmd msg : String) (hc : installCommand req = some cmd) (hm : w.installError = some msg) :
    installStage w req files =
      ⟨[.install cmd, .respond ⟨500, "Error installing packages: " ++ msg, none⟩], files, false⟩ := by
  simp [installStage, hc, hm]

theorem installStage_of_success (w : World) (req : Request) (files : List String)
    (h : installCommand req = none ∨ w.installError = none) :
    installStage w req files =
      (runStage w req files).prepend ((installCommand req).toList.map Event.install) := by
  unfold installStage
  split
  · rename_i cmd hc
    split
    · rename_i msg hm
      rcases h with h | h
      · simp [hc] at h
      · simp [hm] at h
    · simp [hc]
  · rename_i hc
    simp [hc, Run.prepend]

theorem installEvents_obs (c : Option String) :
    responsesOf (c.toList.map Event.install) = [] ∧ spawnsOf (c.toList.map Event.install) = [] := by
  cases c <;> simp [responsesOf, spawnsOf]

/-- When the workspace is ready and the write succeeds, the handler is the write
followed by the provisioner and the stages after it. -/
theorem compileHandler_of_ready (w : World) (req : Request) (hr : workspaceReady w = true)
    (hw : w.writeFails = false) :
    compileHandler w req =
      (installStage w req (addFile w.files (tempFile w req))).prepend
        (mkdirEvents w ++ [.write (tempFile w req) req.code]) := by
  simp only [workspaceReady, Bool.and_eq_true, Bool.or_eq_true, Option.isNone_iff_eq_none] at hr
  obtain ⟨hd, hp⟩ := hr
  unfold compileHandler permissionStage writeStage mkdirEvents
  by_cases he : w.tempDirExists = true
  · simp [he, hp, hw]
  · have hm : w.mkdirError = none := by
      rcases hd with hd | hd
      · exact absurd hd he
      · exact hd
    simp [he, hp, hw, hm, Run.prepend]

/-- When the workspace is not ready, the handler answers 500 and does nothing else
but the attempt to create the directory. -/
theorem compileHandler_of_not_ready (w : World) (req : Request)
    (hr : workspaceReady w = false) :
    (compileHandler w req).spawns = [] ∧ (compileHandler w req).installs = [] ∧
    (compileHandler w req).threw = false ∧ (compileHandler w req).files = w.files ∧
    ∃ out, (compileHandler w req).responses = [⟨500, out, none⟩] := by
  unfold compileHandler permissionStage
  by_cases he : w.tempDirExists = true
  · have hp : w.writable = false := by
      simpa [workspaceReady, he] using hr
    simp [he, hp, Run.spawns, Run.installs, Run.responses, spawnsOf, installsOf, responsesOf]
  · cases hm : w.mkdirError with
    | some msg =>
      simp [he, Run.spawns, Run.installs, Run.responses, spawnsOf, installsOf, responsesOf]
    | none =>
      have hp : w.writable = false := by
        simpa [workspaceReady, he, hm] using hr
      simp [he, hp, Run.prepend, Run.spawns, Run.installs, Run.responses, spawnsOf,
        installsOf, responsesOf]

/-- When the write of the source file throws, nothing is run and nothing is answered;
the file is there when the failed write had already created it. -/
theorem compileHandler_of_write_failure (w : World) (req : Request)
    (hr : workspaceReady w = true) (hw : w.writeFails = true) :
    (compileHandler w req).spawns = [] ∧ (compileHandler w req).installs = [] ∧
    (compileHandler w req).threw = true ∧
    (compileHandler w req).files =
      (if w.writeLeavesFile then addFile w.files (tempFile w req) else w.files) ∧
    (compileHandler w req).responses = [] := by
  simp only [workspaceReady, Bool.and_eq_true, Bool.or_eq_true, Option.isNone_iff_eq_none] at hr
  obtain ⟨hd, hp⟩ := hr
  unfold compileHandler permissionStage writeStage
  by_cases he : w.tempDirExists = true
  · simp [he, hp, hw, Run.spawns, Run.installs, Run.responses, spawnsOf, installsOf, responsesOf]
  · have hm : w.mkdirError = none := by
      rcases hd with hd | hd
      · exact absurd hd he
      · exact hd
    simp [he, hp, hw, hm, Run.prepend, Run.spawns, Run.installs, Run.responses, spawnsOf,
      installsOf, responsesOf]

theorem mkdirEvents_obs (w : World) :
    responsesOf (mkdirEvents w) = [] ∧ spawnsOf (mkdirEvents w) = [] ∧
    installsOf (mkdirEvents w) = [] := by
  unfold mkdirEvents
  split <;> simp [responsesOf, spawnsOf, installsOf]

theorem prefix_obs (w : World) (req : Request) :
    responsesOf (mkdirEvents w ++ [.write (tempFile w req) req.code]) = [] ∧
    spawnsOf (mkdirEvents w ++ [.write (tempFile w req) req.code]) = [] ∧
    installsOf (mkdirEvents w ++ [.write (tempFile w req) req.code]) = [] := by
  obtain ⟨h1, h2, h3⟩ := mkdirEvents_obs w
  rw [responsesOf_append, spawnsOf_append, installsOf_append, h1, h2, h3]
  simp [responsesOf, spawnsOf, installsOf]

/-- The install commands the handler runs: none before the source file is written,
and then the one command of `installCommand`, if any. -/
theorem compileHandler_installs (w : World) (req : Request) :
    (compileHandler w req).installs =
      if workspaceReady w = true ∧ w.writeFails = false then (installCommand req).toList
      else [] := by
  by_cases hr : workspaceReady w = true
  · cases hw : w.writeFails with
    | false =>
      rw [compileHandler_of_ready w req hr hw, installs_prepend, (prefix_obs w req).2.2,
        installStage_installs]
      simp [hr]
    | true => simp [(compileHandler_of_write_failure w req hr hw).2.1]
  · have hr' : workspaceReady w = false := by simpa using hr
    simp [(compileHandler_of_not_ready w req hr').2.1, hr']

/-- A child process is spawned only when the source file was written, no install
failed and the selection produced a command; the command is the selected one. -/
theorem spawn_reached (w : World) (req : Request) (cmd : String)
    (hs : cmd ∈ (compileHandler w req).spawns) :
    workspaceReady w = true ∧ w.writeFails = false ∧
    (installCommand req = none ∨ w.installError = none) ∧
    ∃ tc, selectToolchain req.language (tempFile w req) (binaryPath w) = some tc ∧
      tc.command = cmd := by
  by_cases hr : workspaceReady w = true
  · cases hw : w.writeFails with
    | true => simp [(compileHandler_of_write_failure w req hr hw).1] at hs
    | false =>
      rw [compileHandler_of_ready w req hr hw, spawns_prepend, (prefix_obs w req).2.1] at hs
      refine ⟨hr, rfl, ?_⟩
      by_cases hi : installCommand req = none ∨ w.installError = none
      · rw [installStage_of_success w req _ hi, spawns_prepend,
          (installEvents_obs (installCommand req)).2, runStage_spawns] at hs
        refine ⟨hi, ?_⟩
        cases hsel : selectToolchain req.language (tempFile w req) (binaryPath w) with
        | none => simp [hsel] at hs
        | some tc =>
          simp only [hsel, Option.map_some', Option.toList_some, List.nil_append,
            List.mem_singleton] at hs
          exact ⟨tc, rfl, hs.symm⟩
      · exfalso
        push_neg at hi
        obtain ⟨c, hc⟩ := Option.ne_none_iff_exists'.1 hi.1
        obtain ⟨m, hm⟩ := Option.ne_none_iff_exists'.1 hi.2
        rw [installStage_of_failure w req _ c m hc hm] at hs
        simp [Run.spawns, spawnsOf] at hs
  · have hr' : workspaceReady w = false := by simpa using hr
    simp [(compileHandler_of_not_ready w req hr').1] at hs

/-- The shape of a run that spawns a child process. -/
theorem compileHandler_of_spawn (w : World) (req : Request) (tc : Toolchain)
    (hr : workspaceReady w = true) (hw : w.writeFails = false)
    (hi : installCommand req = none ∨ w.installError = none)
    (hsel : selectToolchain req.language (tempFile w req) (binaryPath w) = some tc)
    (hc : callbackRuns w = true) :
    compileHandler w req =
      (((execCallback w req tc.outputBinary
            (w.childFiles (addFile w.files (tempFile w req)))).prepend
          (.spawn tc.command :: stdinEvents req.input)).prepend
        ((installCommand req).toList.map Event.install)).prepend
      (mkdirEvents w ++ [.write (tempFile w req) req.code]) := by
  rw [compileHandler_of_ready w req hr hw, installStage_of_success w req _ hi,
    runStage_of_toolchain w req _ tc hsel hc]

theorem spawn_obs (w : World) (req : Request) (tc : Toolchain)
    (hr : workspaceReady w = true) (hw : w.writeFails = false)
    (hi : installCommand req = none ∨ w.installError = none)
    (hsel : selectToolchain req.language (tempFile w req) (binaryPath w) = some tc)
    (hc : callbackRuns w = true) :
    (compileHandler w req).responses =
      (execCallback w req tc.outputBinary
        (w.childFiles (addFile w.files (tempFile w req)))).responses ∧
    (compileHandler w req).spawns = [tc.command] ∧
    (compileHandler w req).files =
      (execCallback w req tc.outputBinary
        (w.childFiles (addFile w.files (tempFile w req)))).files := by
  rw [compileHandler_of_spawn w req tc hr hw hi hsel hc]
  have hc1 : responsesOf (.spawn tc.command :: stdinEvents req.input) =
      responsesOf (stdinEvents req.input) := rfl
  have hc2 : spawnsOf (.spawn tc.command :: stdinEvents req.input) =
      tc.command :: spawnsOf (stdinEvents req.input) := rfl
  refine ⟨?_, ?_, rfl⟩
  · rw [responses_prepend, responses_prepend, responses_prepend, (prefix_obs w req).1,
      (installEvents_obs _).1, hc1, (stdinEvents_obs _).1]
    rfl
  · rw [spawns_prepend, spawns_prepend, spawns_prepend, (prefix_obs w req).2.1,
      (installEvents_obs _).2, hc2, (stdinEvents_obs _).2.1,
      (execCallback_obs w req tc.outputBinary _).1]
    rfl

/-! ### Toolchain selection and the provisioner as functions -/

theorem supported_iff (language : String) :
    supported language = true ↔
      language = "javascript" ∨ language = "python" ∨ language = "c" := by
  simp [supported, or_assoc]

theorem selectToolchain_of_unsupported (language tf bin : String)
    (h : supported language = false) : selectToolchain language tf bin = none := by
  have h' : ¬ (language = "javascript" ∨ language = "python" ∨ language = "c") := by
    rw [← supported_iff]; simp [h]
  push_neg at h'
  simp [selectToolchain, h'.1, h'.2.1, h'.2.2]

theorem installCommand_of_unsupported (req : Request) (h : supported req.language = false) :
    installCommand req = none := by
  have h' : ¬ (req.language = "javascript" ∨ req.language = "python" ∨ req.language = "c") := by
    rw [← supported_iff]; simp [h]
  push_neg at h'
  unfold installCommand packageInstallCommand
  split
  · simp [h'.1, h'.2.1]
  · rfl

theorem installCommand_isSome_iff (req : Request) :
    (installCommand req).isSome = true ↔
      (∃ libraries, req.libraries = some libraries ∧ libraries ≠ []) ∧
      (req.language = "python" ∨ req.language = "javascript") := by
  unfold installCommand packageInstallCommand
  cases hl : req.libraries with
  | none => simp
  | some libs =>
    cases libs with
    | nil => simp
    | cons x xs =>
      by_cases hp : req.language = "python"
      · simp [hp]
      · by_cases hj : req.language = "javascript"
        · simp [hj]
        · simp [hp, hj]

/-! ### Files -/

theorem mem_unlinkSync (w : World) (files files1 : List String) (p q : String)
    (h : unlinkSync w files p = some files1) : q ∈ files1 ↔ q ∈ files ∧ q ≠ p := by
  unfold unlinkSync at h
  split at h
  · simp only [Option.some.injEq] at h
    subst h
    simp
  · simp at h

theorem unlinkSync_isSome_iff (w : World) (files : List String) (p : String) :
    (unlinkSync w files p).isSome = true ↔ p ∈ files ∧ w.unlinkFails p = false := by
  unfold unlinkSync
  split
  · rename_i h
    simpa using h
  · rename_i h
    simpa using h

theorem mem_addFile (files : List String) (p q : String) :
    q ∈ addFile files p ↔ q = p ∨ q ∈ files := by
  unfold addFile
  split
  · rename_i h
    have hp : p ∈ files := by simpa using h
    constructor
    · exact fun hq => Or.inr hq
    · rintro (rfl | hq)
      · exact hp
      · exact hq
  · simp

theorem pathJoin_inj (dir a b : String) (h : pathJoin dir a = pathJoin dir b) : a = b := by
  unfold pathJoin at h
  have h' := congrArg String.data h
  simp only [String.data_append] at h'
  exact String.ext (List.append_cancel_left h')

theorem sourceName_ne_plot (id language : String) : id ++ sourceExtension language ≠ "plot.png" := by
  intro h
  have h' := congrArg (fun s => s.data.getLast?) h
  simp only [String.data_append] at h'
  unfold sourceExtension at h'
  split at h'
  · have e : (id.data ++ ".js".data).getLast? = some 's' := by
      show (id.data ++ ['.', 'j', 's']).getLast? = some 's'
      simp [List.getLast?_append]
    rw [e] at h'
    exact absurd h' (by decide)
  · split at h'
    · have e : (id.data ++ ".py".data).getLast? = some 'y' := by
        show (id.data ++ ['.', 'p', 'y']).getLast? = some 'y'
        simp [List.getLast?_append]
      rw [e] at h'
      exact absurd h' (by decide)
    · have e : (id.data ++ ".c".data).getLast? = some 'c' := by
        show (id.data ++ ['.', 'c']).getLast? = some 'c'
        simp [List.getLast?_append]
      rw [e] at h'
      exact absurd h' (by decide)

theorem tempFile_ne_plotPath (w : World) (req : Request) : tempFile w req ≠ plotPath w := by
  intro h
  exact sourceName_ne_plot _ _ (pathJoin_inj _ _ _ h)

theorem binaryPath_ne_plotPath (w : World) (h : w.binaryId ≠ "plot.png") :
    binaryPath w ≠ plotPath w :=
  fun e => h (pathJoin_inj _ _ _ e)

/-- The cleanup touches the source file and the executable only. -/
theorem mem_cleanup (w : World) (language tf : String) (ob : Option String)
    (files : List String) (q : String) (h1 : q ≠ tf) (h2 : ∀ bin, ob = some bin → q ≠ bin) :
    q ∈ (cleanup w language tf ob files).2 ↔ q ∈ files := by
  unfold cleanup
  split
  · rfl
  · rename_i files1 hu
    have m1 := mem_unlinkSync w files files1 tf q hu
    split
    · rename_i bin
      split
      · split
        · simp [m1, h1]
        · rename_i files2 hu2
          have m2 := mem_unlinkSync w files1 files2 bin q hu2
          simp [m2, m1, h1, h2 bin rfl]
      · simp [m1, h1]
    · simp [m1, h1]

theorem toolchain_outputBinary (language tf bin : String) (tc : Toolchain)
    (h : selectToolchain language tf bin = some tc) :
    ∀ b, tc.outputBinary = some b → b = bin := by
  unfold selectToolchain at h
  split at h
  · simp only [Option.some.injEq] at h; subst h; simp
  · split at h
    · simp only [Option.some.injEq] at h; subst h; simp
    · split at h
      · simp only [Option.some.injEq] at h; subst h; simp
      · simp at h

/-! ### The claims about `/compile` -/

/-- C9: for every request whose child process ends abnormally (the callback of `exec`
receives an error), the handler sends exactly one response, with status 500 and with
the captured stderr as its output; stdout is not in it, and the command was spawned
once only. -/
theorem abnormal_exit_reports_stderr (w : World) (req : Request) (cmd : String)
    (hs : cmd ∈ (compileHandler w req).spawns) (he : w.execError = true) :
    (compileHandler w req).responses = [⟨500, w.stderr, none⟩] ∧
    (compileHandler w req).spawns = [cmd] := by
  obtain ⟨hr, hw, hi, tc, hsel, rfl⟩ := spawn_reached w req cmd hs
  obtain ⟨h1, h2, -⟩ := spawn_obs w req tc hr hw hi hsel (callbackRuns_of_error w he)
  rw [h1, h2, execCallback_error w req _ _ he]
  exact ⟨rfl, rfl⟩

/-- C9 at a Python program that exits with status 1. -/
theorem abnormal_exit_reports_stderr_witness :
    "python /srv/temp/7f1c.py" ∈ (compileHandler failingRunWorld pythonRequest).spawns ∧
    failingRunWorld.execError = true ∧
    (compileHandler failingRunWorld pythonRequest).responses =
      [⟨500, "Traceback: exit 1", none⟩] ∧
    (compileHandler failingRunWorld pythonRequest).spawns = ["python /srv/temp/7f1c.py"] :=
  ⟨by decide, rfl,
    abnormal_exit_reports_stderr failingRunWorld pythonRequest "python /srv/temp/7f1c.py"
      (by decide) rfl⟩

/-- C7: for every request in which the install command is run and fails, no child process
is spawned for the submitted code and the one response has status 500 and the output
"Error installing packages: " followed by the message of the installer's error. -/
theorem install_failure_aborts (w : World) (req : Request) (cmd msg : String)
    (hi : cmd ∈ (compileHandler w req).installs) (hm : w.installError = some msg) :
    (compileHandler w req).spawns = [] ∧
    (compileHandler w req).responses =
      [⟨500, "Error installing packages: " ++ msg, none⟩] := by
  rw [compileHandler_installs] at hi
  split at hi
  · rename_i h
    obtain ⟨hr, hw⟩ := h
    have hc : installCommand req = some cmd := by
      cases hq : installCommand req with
      | none => simp [hq] at hi
      | some c =>
        simp only [hq, Option.toList_some, List.mem_singleton] at hi
        rw [hi]
    rw [compileHandler_of_ready w req hr hw, installStage_of_failure w req _ cmd msg hc hm,
      spawns_prepend, responses_prepend, (prefix_obs w req).1, (prefix_obs w req).2.1]
    exact ⟨rfl, rfl⟩
  · simp at hi

/-- C7 at a Python request whose `pip install` fails. -/
theorem install_failure_aborts_witness :
    "pip install numpy matplotlib" ∈ (compileHandler failingInstallWorld pythonRequest).installs ∧
    failingInstallWorld.installError = some "Command failed: pip install numpy matplotlib" ∧
    (compileHandler failingInstallWorld pythonRequest).spawns = [] ∧
    (compileHandler failingInstallWorld pythonRequest).responses =
      [⟨500, "Error installing packages: Command failed: pip install numpy matplotlib", none⟩] :=
  ⟨by decide, rfl,
    install_failure_aborts failingInstallWorld pythonRequest "pip install numpy matplotlib"
      "Command failed: pip install numpy matplotlib" (by decide) rfl⟩

/-- C6: an install command is produced if and only if the list of libraries is
non-empty and the language is "python" or "javascript"; it is "pip install "
(python) or "npm install " (javascript) followed by the names joined by single
spaces; the handler runs that one command and no other once the source file is
written, and runs none for language "c", for an unsupported language, and for an
empty or absent list. -/
theorem install_command_spec :
    (∀ req : Request, (installCommand req).isSome = true ↔
      (∃ libraries, req.libraries = some libraries ∧ libraries ≠ []) ∧
      (req.language = "python" ∨ req.language = "javascript")) ∧
    (∀ (req : Request) (libraries : List String),
      req.libraries = some libraries → libraries ≠ [] →
      (req.language = "python" →
        installCommand req = some ("pip install " ++ " ".intercalate libraries)) ∧
      (req.language = "javascript" →
        installCommand req = some ("npm install " ++ " ".intercalate libraries))) ∧
    (∀ (w : World) (req : Request), workspaceReady w = true → w.writeFails = false →
      (compileHandler w req).installs = (installCommand req).toList) ∧
    (∀ (w : World) (req : Request),
      (compileHandler w req).installs = [] ∨
      (compileHandler w req).installs = (installCommand req).toList) ∧
    (∀ (w : World) (req : Request),
      (req.language = "c" ∨ supported req.language = false ∨ req.libraries = none ∨
        req.libraries = some []) →
      (compileHandler w req).installs = []) := by
  refine ⟨installCommand_isSome_iff, ?_, ?_, ?_, ?_⟩
  · intro req libs hl hne
    cases libs with
    | nil => exact absurd rfl hne
    | cons x xs =>
      constructor
      · intro hp
        simp [installCommand, packageInstallCommand, hl, hp]
      · intro hj
        simp [installCommand, packageInstallCommand, hl, hj]
  · intro w req hr hw
    rw [compileHandler_installs]
    simp [hr, hw]
  · intro w req
    rw [compileHandler_installs]
    split
    · exact Or.inr rfl
    · exact Or.inl rfl
  · intro w req h
    have hn : installCommand req = none := by
      rcases h with h | h | h | h
      · unfold installCommand packageInstallCommand
        split <;> simp [h]
      · exact installCommand_of_unsupported req h
      · simp [installCommand, h]
      · simp [installCommand, h]
    rw [compileHandler_installs, hn]
    simp

/-- C6 at a Python request with two libraries, and at a C request. -/
theorem install_command_spec_witness :
    (pythonRequest.libraries = some ["numpy", "matplotlib"] ∧ pythonRequest.language = "python" ∧
      installCommand pythonRequest = some "pip install numpy matplotlib") ∧
    (workspaceReady calmWorld = true ∧ calmWorld.writeFails = false ∧
      (compileHandler calmWorld pythonRequest).installs = ["pip install numpy matplotlib"]) ∧
    (cRequest.language = "c" ∧ (compileHandler calmWorld cRequest).installs = []) :=
  ⟨⟨rfl, rfl,
      ((install_command_spec.2.1 pythonRequest ["numpy", "matplotlib"] rfl (by decide)).1
        rfl).trans (by decide)⟩,
    ⟨by decide, rfl,
      (install_command_spec.2.2.1 calmWorld pythonRequest (by decide) rfl).trans (by decide)⟩,
    ⟨rfl, install_command_spec.2.2.2.2 calmWorld cRequest (Or.inl rfl)⟩⟩

theorem collectPlot_spec (w : World) (files : List String) :
    ∃ p, (collectPlot w files).responses = [⟨200, w.stdout, p⟩] ∧
      (p.isSome = true ↔ plotPath w ∈ files) ∧
      (∀ bytes, plotPath w ∈ files → w.readFile (plotPath w) = some bytes →
        w.unlinkFails (plotPath w) = false →
        p = some (String.mk (base64Encode bytes)) ∧ plotPath w ∉ (collectPlot w files).files) ∧
      (plotPath w ∈ files →
        (w.readFile (plotPath w) = none ∨ w.unlinkFails (plotPath w) = true) → p = some "") := by
  unfold collectPlot
  by_cases hmem : plotPath w ∈ files
  · have hc : files.contains (plotPath w) = true := by simpa using hmem
    cases hread : w.readFile (plotPath w) with
    | none =>
      refine ⟨some "", ?_, ?_, ?_, ?_⟩
      · simp [hmem, hread, Run.responses, responsesOf]
      · simp [hmem]
      · intro bytes _ hb
        simp at hb
      · intro _ _
        rfl
    | some bytes =>
      cases hu : unlinkSync w files (plotPath w) with
      | none =>
        have hf : w.unlinkFails (plotPath w) = true := by
          have := unlinkSync_isSome_iff w files (plotPath w)
          rw [hu] at this
          simp only [Option.isSome_none, Bool.false_eq_true, false_iff, not_and,
            Bool.not_eq_false] at this
          exact this hmem
        refine ⟨some "", ?_, ?_, ?_, ?_⟩
        · simp [hmem, hread, hu, Run.responses, responsesOf]
        · simp [hmem]
        · intro b _ _ hb
          rw [hf] at hb
          exact absurd hb (by decide)
        · intro _ _
          rfl
      | some files1 =>
        have hf : w.unlinkFails (plotPath w) = false := by
          have := (unlinkSync_isSome_iff w files (plotPath w)).1 (by rw [hu]; rfl)
          exact this.2
        refine ⟨some (String.mk (base64Encode bytes)), ?_, ?_, ?_, ?_⟩
        · simp [hmem, hread, hu, Run.responses, responsesOf]
        · simp [hmem]
        · intro b _ hb _
          simp only [Option.some.injEq] at hb
          subst hb
          refine ⟨rfl, ?_⟩
          simp only [hc, hread, hu, if_true]
          intro hin
          exact ((mem_unlinkSync w files files1 _ _ hu).1 hin).2 rfl
        · intro _ h
          rcases h with h | h
          · simp at h
          · rw [hf] at h
            exact absurd h (by decide)
  · have hc : files.contains (plotPath w) = false := by simpa using hmem
    refine ⟨none, ?_, ?_, ?_, ?_⟩
    · simp [hmem, Run.responses, responsesOf]
    · simp [hmem]
    · intro b h
      exact absurd h hmem
    · intro h
      exact absurd h hmem

theorem execCallback_of_success (w : World) (req : Request) (ob : Option String)
    (files : List String) (he : w.execError = false) :
    execCallback w req ob files =
      (collectPlot w (cleanup w req.language (tempFile w req) ob files).2).prepend
        (cleanup w req.language (tempFile w req) ob files).1 := by
  simp [execCallback, he]

/-- A request in an unsupported language, once the source file is written. -/
theorem compileHandler_of_unsupported (w : World) (req : Request)
    (hl : supported req.language = false) (hr : workspaceReady w = true)
    (hw : w.writeFails = false) :
    compileHandler w req =
      Run.prepend (mkdirEvents w ++ [.write (tempFile w req) req.code])
        (match unlinkSync w (addFile w.files (tempFile w req)) (tempFile w req) with
          | some files1 =>
            ⟨[.unlink (tempFile w req), .respond ⟨400, "Unsupported language", none⟩],
              files1, false⟩
          | none => ⟨[.unlink (tempFile w req)], addFile w.files (tempFile w req), true⟩) := by
  rw [compileHandler_of_ready w req hr hw,
    installStage_of_success w req _ (Or.inl (installCommand_of_unsupported req hl)),
    installCommand_of_unsupported req hl]
  unfold runStage
  rw [selectToolchain_of_unsupported _ _ _ hl]
  simp [Run.prepend]

theorem spawns_of_unsupported (w : World) (req : Request)
    (hl : supported req.language = false) : (compileHandler w req).spawns = [] := by
  cases hq : (compileHandler w req).spawns with
  | nil => rfl
  | cons cmd rest =>
    obtain ⟨-, -, -, tc, hsel, -⟩ := spawn_reached w req cmd (by rw [hq]; simp)
    rw [selectToolchain_of_unsupported _ _ _ hl] at hsel
    simp at hsel

theorem sourceExtension_of_unsupported (language : String) (hl : supported language = false) :
    sourceExtension language = ".c" := by
  have h : ¬ (language = "javascript" ∨ language = "python" ∨ language = "c") := by
    rw [← supported_iff]; simp [hl]
  push_neg at h
  simp [sourceExtension, h.1, h.2.1]

theorem unlinkSync_of_written (w : World) (req : Request)
    (hu : w.unlinkFails (tempFile w req) = false) :
    ∃ files1, unlinkSync w (addFile w.files (tempFile w req)) (tempFile w req) = some files1 :=
  Option.isSome_iff_exists.1
    ((unlinkSync_isSome_iff _ _ _).2 ⟨(mem_addFile _ _ _).2 (Or.inl rfl), hu⟩)

/-- C4, as stated, fails: a request in the unsupported language "go" is not rejected
with status 400 when unlinking the source file throws (no response is sent), nor when
the temp directory is not writable (the response has status 500). -/
theorem unsupported_language_not_always_400 :
    supported goRequest.language = false ∧
    (compileHandler failingUnlinkWorld goRequest).responses = [] ∧
    (compileHandler readOnlyWorld goRequest).responses =
      [⟨500, "No write permission for temp directory", none⟩] := by
  decide

/-- C4, amended: the toolchain selection is the function `selectToolchain` of the
language and the two allocated paths: "node" and "python" followed by the source
file, without an executable, for "javascript" and "python"; for "c" the compile step
and the run step joined by " && ", with the executable path, which the shell runs as
an and-list: the run step is executed only if the compile step exits with status
zero; nothing for any other language.  The handler spawns the selected command and
no other, spawns nothing for any other language, and rejects such a request with
status 400 when it reaches the selection (workspace ready, source file written) and
the unlink of the source file succeeds. -/
theorem toolchain_selection_spec :
    (∀ tf bin : String, selectToolchain "javascript" tf bin = some ⟨"node " ++ tf, none⟩) ∧
    (∀ tf bin : String, selectToolchain "python" tf bin = some ⟨"python " ++ tf, none⟩) ∧
    (∀ tf bin : String, selectToolchain "c" tf bin =
      some ⟨"gcc " ++ tf ++ " -o " ++ bin ++ " && " ++ bin, some bin⟩) ∧
    (∀ tf bin : String,
      (selectToolchain "c" tf bin).map Toolchain.command =
        some (" && ".intercalate (cSteps tf bin))) ∧
    (∀ (exit : String → Nat) (tf bin : String),
      (exit ("gcc " ++ tf ++ " -o " ++ bin) ≠ 0 →
        shellAndList exit (cSteps tf bin) =
          (["gcc " ++ tf ++ " -o " ++ bin], exit ("gcc " ++ tf ++ " -o " ++ bin))) ∧
      (exit ("gcc " ++ tf ++ " -o " ++ bin) = 0 →
        (shellAndList exit (cSteps tf bin)).1 = ["gcc " ++ tf ++ " -o " ++ bin, bin])) ∧
    (∀ language tf bin : String, supported language = false →
      selectToolchain language tf bin = none) ∧
    (∀ (w : World) (req : Request), workspaceReady w = true → w.writeFails = false →
      (installCommand req = none ∨ w.installError = none) →
      (compileHandler w req).spawns =
        ((selectToolchain req.language (tempFile w req) (binaryPath w)).map
          Toolchain.command).toList) ∧
    (∀ (w : World) (req : Request), supported req.language = false →
      (compileHandler w req).spawns = []) ∧
    (∀ (w : World) (req : Request), supported req.language = false →
      workspaceReady w = true → w.writeFails = false →
      w.unlinkFails (tempFile w req) = false →
      (compileHandler w req).responses = [⟨400, "Unsupported language", none⟩]) := by
  refine ⟨fun _ _ => rfl, fun _ _ => rfl, fun _ _ => rfl, fun _ _ => rfl, ?_,
    selectToolchain_of_unsupported, ?_, spawns_of_unsupported, ?_⟩
  · intro exit tf bin
    constructor
    · intro h
      simp [shellAndList, cSteps, h]
    · intro h
      by_cases hb : exit bin = 0 <;> simp [shellAndList, cSteps, h, hb]
  · intro w req hr hw hi
    rw [compileHandler_of_ready w req hr hw, installStage_of_success w req _ hi,
      spawns_prepend, spawns_prepend, (prefix_obs w req).2.1, (installEvents_obs _).2,
      runStage_spawns]
    rfl
  · intro w req hl hr hw hu
    obtain ⟨files1, hf⟩ := unlinkSync_of_written w req hu
    rw [compileHandler_of_unsupported w req hl hr hw, hf, responses_prepend,
      (prefix_obs w req).1]
    rfl

/-- C4, amended, at a C request (the command that is spawned, and its two steps when
the compiler fails) and at a Ruby request (rejected). -/
theorem toolchain_selection_spec_witness :
    (workspaceReady calmWorld = true ∧ calmWorld.writeFails = false ∧
      (compileHandler calmWorld cRequest).spawns =
        ["gcc /srv/temp/7f1c.c -o /srv/temp/a2b9 && /srv/temp/a2b9"]) ∧
    shellAndList (fun step => if step = "/srv/temp/a2b9" then 3 else 1)
        (cSteps "/srv/temp/7f1c.c" "/srv/temp/a2b9") =
      (["gcc /srv/temp/7f1c.c -o /srv/temp/a2b9"], 1) ∧
    (supported rubyRequest.language = false ∧
      calmWorld.unlinkFails (tempFile calmWorld rubyRequest) = false ∧
      (compileHandler calmWorld rubyRequest).spawns = [] ∧
      (compileHandler calmWorld rubyRequest).responses =
        [⟨400, "Unsupported language", none⟩]) :=
  ⟨⟨by decide, rfl,
      (toolchain_selection_spec.2.2.2.2.2.2.1 calmWorld cRequest (by decide) rfl
        (Or.inl (by decide))).trans (by decide)⟩,
    ((toolchain_selection_spec.2.2.2.2.1
        (fun step => if step = "/srv/temp/a2b9" then 3 else 1)
        "/srv/temp/7f1c.c" "/srv/temp/a2b9").1 (by decide)).trans (by decide),
    ⟨by decide, rfl,
      toolchain_selection_spec.2.2.2.2.2.2.2.1 calmWorld rubyRequest (by decide),
      toolchain_selection_spec.2.2.2.2.2.2.2.2 calmWorld rubyRequest (by decide) (by decide)
        rfl rfl⟩⟩

/-- C2, as stated, fails: for the unsupported language "ruby" the handler writes the
source file (with extension ".c") before it rejects the request. -/
theorem unsupported_language_writes_first :
    supported rubyRequest.language = false ∧
    (compileHandler calmWorld rubyRequest).events =
      [.write "/srv/temp/7f1c.c" "puts 1", .unlink "/srv/temp/7f1c.c",
        .respond ⟨400, "Unsupported language", none⟩] ∧
    (compileHandler calmWorld rubyRequest).writes = ["/srv/temp/7f1c.c"] := by
  decide

/-- C2, amended: for a request in an unsupported language that gets as far as the
source write (workspace ready), the handler attempts to write the source file, named
with the extension ".c", as its first operation after any creation of the directory
and before it looks at the language, and it runs no install command and no child
process; when that write and the unlink that follows both succeed, its operations
are exactly: write the source file, unlink it, respond with status 400 and output
"Unsupported language"; the source file is then not left behind and every other
file of the temp directory is as before. -/
theorem unsupported_language_rejected_after_write (w : World) (req : Request)
    (hl : supported req.language = false) (hr : workspaceReady w = true) :
    tempFile w req = pathJoin w.tempDir (w.sourceId ++ ".c") ∧
    (∃ rest, (compileHandler w req).events =
      mkdirEvents w ++ .write (tempFile w req) req.code :: rest ∧ writesOf rest = []) ∧
    (compileHandler w req).installs = [] ∧
    (compileHandler w req).spawns = [] ∧
    (w.writeFails = false → w.unlinkFails (tempFile w req) = false →
      (compileHandler w req).events =
        mkdirEvents w ++ [.write (tempFile w req) req.code, .unlink (tempFile w req),
          .respond ⟨400, "Unsupported language", none⟩] ∧
      (compileHandler w req).threw = false ∧
      tempFile w req ∉ (compileHandler w req).files ∧
      (∀ path, path ≠ tempFile w req →
        (path ∈ (compileHandler w req).files ↔ path ∈ w.files))) := by
  refine ⟨?_, ?_, ?_, spawns_of_unsupported w req hl, ?_⟩
  · simp only [tempFile, sourceExtension_of_unsupported _ hl]
  · cases hw : w.writeFails with
    | true =>
      refine ⟨[], ?_, rfl⟩
      have hr2 := hr
      simp only [workspaceReady, Bool.and_eq_true, Bool.or_eq_true,
        Option.isNone_iff_eq_none] at hr2
      obtain ⟨hd, hp⟩ := hr2
      unfold compileHandler permissionStage writeStage mkdirEvents
      by_cases he : w.tempDirExists = true
      · simp [he, hp, hw]
      · have hm : w.mkdirError = none := by
          rcases hd with hd | hd
          · exact absurd hd he
          · exact hd
        simp [he, hp, hw, hm, Run.prepend]
    | false =>
      rw [compileHandler_of_unsupported w req hl hr hw]
      cases hu : unlinkSync w (addFile w.files (tempFile w req)) (tempFile w req) with
      | none => exact ⟨[.unlink (tempFile w req)], by simp [Run.prepend], rfl⟩
      | some files1 =>
        exact ⟨[.unlink (tempFile w req), .respond ⟨400, "Unsupported language", none⟩],
          by simp [Run.prepend], rfl⟩
  · rw [compileHandler_installs, installCommand_of_unsupported req hl]
    simp
  · intro hw hu
    obtain ⟨files1, hf⟩ := unlinkSync_of_written w req hu
    rw [compileHandler_of_unsupported w req hl hr hw, hf]
    refine ⟨by simp [Run.prepend], rfl, ?_, ?_⟩
    · intro hin
      exact ((mem_unlinkSync w _ files1 _ _ hf).1 hin).2 rfl
    · intro path hp
      show path ∈ files1 ↔ path ∈ w.files
      rw [mem_unlinkSync w _ files1 _ path hf, mem_addFile]
      constructor
      · rintro ⟨h | h, -⟩
        · exact absurd h hp
        · exact h
      · intro h
        exact ⟨Or.inr h, hp⟩

/-- C2, amended, at a Ruby request. -/
theorem unsupported_language_rejected_after_write_witness :
    supported rubyRequest.language = false ∧ workspaceReady calmWorld = true ∧
    calmWorld.writeFails = false ∧
    calmWorld.unlinkFails (tempFile calmWorld rubyRequest) = false ∧
    tempFile calmWorld rubyRequest = "/srv/temp/7f1c.c" ∧
    (compileHandler calmWorld rubyRequest).threw = false ∧
    tempFile calmWorld rubyRequest ∉ (compileHandler calmWorld rubyRequest).files :=
  ⟨by decide, by decide, rfl, rfl,
    (unsupported_language_rejected_after_write calmWorld rubyRequest (by decide)
      (by decide)).1.trans (by decide),
    ((unsupported_language_rejected_after_write calmWorld rubyRequest (by decide)
      (by decide)).2.2.2.2 rfl rfl).2.1,
    ((unsupported_language_rejected_after_write calmWorld rubyRequest (by decide)
      (by decide)).2.2.2.2 rfl rfl).2.2.1⟩

/-- C8, evaluated: the image exists after the run and is read, but unlinking it
throws; the response is a success whose plot is the empty string, not the base64
encoding of the bytes read, and the image is still in the temp directory. -/
theorem plot_read_but_not_unlinked :
    (compileHandler stuckPlotWorld pythonRequest).spawns = ["python /srv/temp/7f1c.py"] ∧
    stuckPlotWorld.execError = false ∧
    plotPath stuckPlotWorld ∈
      stuckPlotWorld.childFiles (addFile stuckPlotWorld.files
        (tempFile stuckPlotWorld pythonRequest)) ∧
    stuckPlotWorld.readFile (plotPath stuckPlotWorld) = some [137, 80, 78, 71] ∧
    String.mk (base64Encode [137, 80, 78, 71]) = "iVBORw==" ∧
    (compileHandler stuckPlotWorld pythonRequest).responses = [⟨200, "42\n", some ""⟩] ∧
    plotPath stuckPlotWorld ∈ (compileHandler stuckPlotWorld pythonRequest).files := by
  decide

/-- The success response, for every request whose child process ends successfully:
status 200, the captured stdout as output, and a plot field if and only if
"plot.png" existed in the temp directory after the run; when it existed, was read
and was unlinked, the plot is the base64 encoding of its bytes and the file is gone;
when reading it throws the plot is empty, and so it is when the unlink throws. -/
theorem success_response_plot (w : World) (req : Request) (cmd : String)
    (hs : cmd ∈ (compileHandler w req).spawns) (he : w.execError = false)
    (hh : w.childHangs = false) (hid : w.binaryId ≠ "plot.png") :
    ∃ p, (compileHandler w req).responses = [⟨200, w.stdout, p⟩] ∧
      (p.isSome = true ↔
        plotPath w ∈ w.childFiles (addFile w.files (tempFile w req))) ∧
      (∀ bytes, plotPath w ∈ w.childFiles (addFile w.files (tempFile w req)) →
        w.readFile (plotPath w) = some bytes → w.unlinkFails (plotPath w) = false →
        p = some (String.mk (base64Encode bytes)) ∧
        plotPath w ∉ (compileHandler w req).files) ∧
      (plotPath w ∈ w.childFiles (addFile w.files (tempFile w req)) →
        (w.readFile (plotPath w) = none ∨ w.unlinkFails (plotPath w) = true) →
        p = some "") := by
  obtain ⟨hr, hw, hi, tc, hsel, -⟩ := spawn_reached w req cmd hs
  obtain ⟨h1, -, h3⟩ := spawn_obs w req tc hr hw hi hsel (callbackRuns_of_ends w hh)
  have hmem := mem_cleanup w req.language (tempFile w req) tc.outputBinary
    (w.childFiles (addFile w.files (tempFile w req))) (plotPath w)
    (fun e => tempFile_ne_plotPath w req e.symm)
    (fun bin hb e => binaryPath_ne_plotPath w hid
      ((toolchain_outputBinary _ _ _ tc hsel bin hb).symm.trans e.symm))
  obtain ⟨p, hp1, hp2, hp3, hp4⟩ := collectPlot_spec w
    (cleanup w req.language (tempFile w req) tc.outputBinary
      (w.childFiles (addFile w.files (tempFile w req)))).2
  refine ⟨p, ?_, ?_, ?_, ?_⟩
  · rw [h1, execCallback_of_success w req _ _ he, responses_prepend,
      (cleanup_obs w req.language (tempFile w req) tc.outputBinary _).1, hp1]
    rfl
  · rw [hp2, hmem]
  · intro bytes hex hread hu
    obtain ⟨e1, e2⟩ := hp3 bytes (hmem.2 hex) hread hu
    refine ⟨e1, ?_⟩
    rw [h3, execCallback_of_success w req _ _ he]
    exact e2
  · intro hex h
    exact hp4 (hmem.2 hex) h

/-- The success response at a Python program that writes the image. -/
theorem success_response_plot_witness :
    "python /srv/temp/7f1c.py" ∈ (compileHandler plotWorld pythonRequest).spawns ∧
    plotWorld.execError = false ∧ plotWorld.binaryId ≠ "plot.png" ∧
    (compileHandler plotWorld pythonRequest).responses = [⟨200, "42\n", some "iVBORw=="⟩] ∧
    ∃ p, (compileHandler plotWorld pythonRequest).responses = [⟨200, "42\n", p⟩] ∧
      (p.isSome = true ↔
        plotPath plotWorld ∈
          plotWorld.childFiles (addFile plotWorld.files (tempFile plotWorld pythonRequest))) :=
  ⟨by decide, rfl, by decide, by decide,
    (success_response_plot plotWorld pythonRequest "python /srv/temp/7f1c.py" (by decide) rfl
      rfl (by decide)).imp fun _ h => ⟨h.1, h.2.1⟩⟩

/-- C1, evaluated: after a Python program that exits non-zero, after a C program that
compiles and exits non-zero, and after a failed install, the response is sent and the
source file (and the executable, for C) is still in the temp directory. -/
theorem source_left_after_failure :
    ((compileHandler failingRunWorld pythonRequest).responses =
        [⟨500, "Traceback: exit 1", none⟩] ∧
      tempFile failingRunWorld pythonRequest ∈
        (compileHandler failingRunWorld pythonRequest).files) ∧
    ((compileHandler failingBinaryWorld cRequest).responses = [⟨500, "", none⟩] ∧
      tempFile failingBinaryWorld cRequest ∈ (compileHandler failingBinaryWorld cRequest).files ∧
      binaryPath failingBinaryWorld ∈ (compileHandler failingBinaryWorld cRequest).files) ∧
    ((compileHandler failingInstallWorld pythonRequest).responses =
        [⟨500, "Error installing packages: Command failed: pip install numpy matplotlib",
          none⟩] ∧
      tempFile failingInstallWorld pythonRequest ∈
        (compileHandler failingInstallWorld pythonRequest).files) := by
  decide

/-- Whenever the child process ends abnormally the cleanup is skipped: the files left
are those the child left, the source file among them unless the child removed it. -/
theorem exec_error_skips_cleanup (w : World) (req : Request) (cmd : String)
    (hs : cmd ∈ (compileHandler w req).spawns) (he : w.execError = true) :
    (compileHandler w req).files = w.childFiles (addFile w.files (tempFile w req)) := by
  obtain ⟨hr, hw, hi, tc, hsel, -⟩ := spawn_reached w req cmd hs
  obtain ⟨-, -, h3⟩ := spawn_obs w req tc hr hw hi hsel (callbackRuns_of_error w he)
  rw [h3, execCallback_error w req _ _ he]

/-- C3, evaluated: when writing the source file throws, and when unlinking it throws for
an unsupported language, the handler sends no response and the exception escapes it. -/
theorem no_response_when_write_or_unlink_throws :
    ((compileHandler failingWriteWorld pythonRequest).responses = [] ∧
      (compileHandler failingWriteWorld pythonRequest).threw = true) ∧
    ((compileHandler failingUnlinkWorld rubyRequest).responses = [] ∧
      (compileHandler failingUnlinkWorld rubyRequest).threw = true) := by
  decide

theorem settled_prepend (es : List Event) (r : Run) (h : responsesOf es = [])
    (hs : Settled r) : Settled (r.prepend es) := by
  unfold Settled at *
  rw [responses_prepend, h, threw_prepend]
  simpa using hs

theorem runStage_settled (w : World) (req : Request) (files : List String) :
    Settled (runStage w req files) := by
  unfold runStage
  split
  · split
    · exact Or.inl ⟨rfl, _, rfl⟩
    · exact Or.inr rfl
  · rename_i tc h
    split
    · apply settled_prepend
      · exact (stdinEvents_obs req.input).1
      · obtain ⟨-, -, ht, x, hx⟩ := execCallback_obs w req tc.outputBinary (w.childFiles files)
        exact Or.inl ⟨ht, x, hx⟩
    · exact Or.inr (stdinEvents_obs req.input).1

theorem installStage_settled (w : World) (req : Request) (files : List String) :
    Settled (installStage w req files) := by
  unfold installStage
  split
  · split
    · exact Or.inl ⟨rfl, _, rfl⟩
    · exact settled_prepend _ _ rfl (runStage_settled w req files)
  · exact runStage_settled w req files

/-- Every run of the handler sends at most one response, and none when an exception
escapes it. -/
theorem compileHandler_settled (w : World) (req : Request) :
    Settled (compileHandler w req) := by
  by_cases hr : workspaceReady w = true
  · cases hw : w.writeFails with
    | true =>
      obtain ⟨-, -, -, -, hx⟩ := compileHandler_of_write_failure w req hr hw
      exact Or.inr hx
    | false =>
      rw [compileHandler_of_ready w req hr hw]
      exact settled_prepend _ _ (prefix_obs w req).1 (installStage_settled w req _)
  · have hr' : workspaceReady w = false := by simpa using hr
    obtain ⟨-, -, ht, -, out, hx⟩ := compileHandler_of_not_ready w req hr'
    exact Or.inl ⟨ht, _, hx⟩

theorem runStage_threw_of_toolchain (w : World) (req : Request) (files : List String)
    (tc : Toolchain)
    (h : selectToolchain req.language (tempFile w req) (binaryPath w) = some tc) :
    (runStage w req files).threw = false := by
  cases hc : callbackRuns w with
  | true =>
    rw [runStage_of_toolchain w req files tc h hc, threw_prepend]
    exact (execCallback_obs w req _ _).2.2.1
  | false => rw [runStage_of_hang w req files tc h hc]

/-- An exception escapes the handler exactly when writing the source file throws, or
the language is unsupported and unlinking the source file throws. -/
theorem compileHandler_threw_iff (w : World) (req : Request) :
    (compileHandler w req).threw = true ↔
      workspaceReady w = true ∧
      (w.writeFails = true ∨
        (supported req.language = false ∧ w.unlinkFails (tempFile w req) = true)) := by
  by_cases hr : workspaceReady w = true
  · cases hw : w.writeFails with
    | true => simp [(compileHandler_of_write_failure w req hr hw).2.2.1, hr]
    | false =>
      cases hl : supported req.language with
      | false =>
        rw [compileHandler_of_unsupported w req hl hr hw, threw_prepend]
        cases hu : w.unlinkFails (tempFile w req) with
        | false =>
          have hsome := (unlinkSync_isSome_iff w (addFile w.files (tempFile w req))
            (tempFile w req)).2 ⟨(mem_addFile _ _ _).2 (Or.inl rfl), hu⟩
          obtain ⟨files1, hf⟩ := Option.isSome_iff_exists.1 hsome
          simp [hf, hr]
        | true =>
          have hnone : unlinkSync w (addFile w.files (tempFile w req)) (tempFile w req)
              = none := by
            simp [unlinkSync, hu]
          simp [hnone, hr]
      | true =>
        have hsel : ∃ tc, selectToolchain req.language (tempFile w req) (binaryPath w)
            = some tc := by
          rcases (supported_iff _).1 hl with h | h | h <;>
            simp [selectToolchain, h]
        obtain ⟨tc, hsel⟩ := hsel
        have hrun : ∀ files, (runStage w req files).threw = false :=
          fun files => runStage_threw_of_toolchain w req files tc hsel
        rw [compileHandler_of_ready w req hr hw, threw_prepend]
        unfold installStage
        split
        · split
          · simp [hr]
          · simp [threw_prepend, hrun, hr]
        · simp [hrun, hr]
  · have hr' : workspaceReady w = false := by simpa using hr
    simp [(compileHandler_of_not_ready w req hr').2.2.1, hr']

theorem runStage_responds (w : World) (req : Request) (files : List String)
    (hc : callbackRuns w = true) (ht : (runStage w req files).threw = false) :
    ∃ x, (runStage w req files).responses = [x] := by
  cases hsel : selectToolchain req.language (tempFile w req) (binaryPath w) with
  | none =>
    cases hu : unlinkSync w files (tempFile w req) with
    | none => simp [runStage, hsel, hu] at ht
    | some files1 =>
      exact ⟨⟨400, "Unsupported language", none⟩,
        by simp [runStage, hsel, hu, Run.responses, responsesOf]⟩
  | some tc =>
    rw [runStage_responses_of_toolchain w req files tc hsel hc]
    exact (execCallback_obs w req _ _).2.2.2

/-- When no exception escapes the handler and the child process, if one is spawned,
ends, the handler sends exactly one response. -/
theorem compileHandler_responds (w : World) (req : Request) (hc : callbackRuns w = true)
    (ht : (compileHandler w req).threw = false) :
    ∃ x, (compileHandler w req).responses = [x] := by
  by_cases hr : workspaceReady w = true
  · cases hw : w.writeFails with
    | true =>
      rw [(compileHandler_of_write_failure w req hr hw).2.2.1] at ht
      exact absurd ht (by decide)
    | false =>
      rw [compileHandler_of_ready w req hr hw, threw_prepend] at ht
      rw [compileHandler_of_ready w req hr hw, responses_prepend, (prefix_obs w req).1]
      by_cases hi : installCommand req = none ∨ w.installError = none
      · rw [installStage_of_success w req _ hi, threw_prepend] at ht
        rw [installStage_of_success w req _ hi, responses_prepend, (installEvents_obs _).1]
        exact runStage_responds w req _ hc ht
      · push_neg at hi
        obtain ⟨c, hq⟩ := Option.ne_none_iff_exists'.1 hi.1
        obtain ⟨m, hm⟩ := Option.ne_none_iff_exists'.1 hi.2
        rw [installStage_of_failure w req _ c m hq hm]
        exact ⟨_, rfl⟩
  · have hr' : workspaceReady w = false := by simpa using hr
    obtain ⟨-, -, -, -, out, hx⟩ := compileHandler_of_not_ready w req hr'
    exact ⟨_, hx⟩

/-- When the child process never ends the handler has spawned it and never answers. -/
theorem compileHandler_of_hang (w : World) (req : Request) (cmd : String)
    (hs : cmd ∈ (compileHandler w req).spawns) (hc : callbackRuns w = false) :
    (compileHandler w req).responses = [] ∧ (compileHandler w req).threw = false := by
  obtain ⟨hr, hw, hi, tc, hsel, -⟩ := spawn_reached w req cmd hs
  rw [compileHandler_of_ready w req hr hw, installStage_of_success w req _ hi,
    runStage_of_hang w req _ tc hsel hc, responses_prepend, responses_prepend,
    (prefix_obs w req).1, (installEvents_obs _).1]
  exact ⟨(stdinEvents_obs req.input).1, rfl⟩

end CodeEditor
